import Mathlib

set_option autoImplicit false

/-!
Shallow embedding of the CLBlast AXPY routine dispatcher
(`src/routines/level1/xaxpy.cc`, `Xaxpy<T>::DoAxpy`) together with the
helper functions it calls.  The execution backend (program cache, kernel
object, queue) is modelled as an oracle `Backend` saying at which call an
exception is raised and which status the kernel launch reports; every
backend call the dispatcher actually performs is recorded in an event
trace, so that claims about "no backend interaction" and about argument
binding and launch geometry can be stated as facts about the trace.
-/

namespace Clblast

/-- Status codes surfaced to callers.  The spec lists
success / invalid-dimension / invalid-buffer-size / invalid-kernel / ...;
the trailing codes model statuses the execution backend itself may report
from a kernel launch. -/
inductive StatusCode where
  | kSuccess
  | kInvalidDimension
  | kInvalidBufferSize
  | kInvalidKernel
  | kKernelLaunchError
  | kKernelRunError
  deriving DecidableEq, Repr

/-- Modelled from the spec: `ErrorIn` is not among the sources; a status is
an error exactly when it is not success. -/
def ErrorIn (s : StatusCode) : Bool := decide (s ≠ StatusCode.kSuccess)

/-- Modelled from the spec: `CeilDiv` is not among the sources; the spec
fixes round-up integer division as `(n + k - 1) / k`. -/
def CeilDiv (x y : Nat) : Nat := (x + y - 1) / y

/-- Modelled from the spec: `Ceil` is not among the sources; the spec
describes it as rounding `x` up to the nearest multiple of `y`. -/
def Ceil (x y : Nat) : Nat := CeilDiv x y * y

/-- Modelled from the spec: `IsMultiple` is not among the sources; the spec
reads "exact integer multiple". -/
def IsMultiple (a b : Nat) : Bool := decide (b ∣ a)

/-- Modelled from the spec: `TestVectorX`/`TestVectorY` are not among the
sources.  Per the validation contract the check fails with
`kInvalidDimension` on zero length and with `kInvalidBufferSize` when the
maximum accessed offset `offset + (n-1)*inc` falls outside the buffer
extent; buffer sizes are counted in elements. -/
def TestVector (n sz offset inc : Nat) : StatusCode :=
  if n = 0 then StatusCode.kInvalidDimension
  else if sz < offset + (n - 1) * inc + 1 then StatusCode.kInvalidBufferSize
  else StatusCode.kSuccess

/-- Validation of the x operand (spec 4.1). -/
def TestVectorX (n sz offset inc : Nat) : StatusCode := TestVector n sz offset inc

/-- Validation of the y operand (spec 4.1). -/
def TestVectorY (n sz offset inc : Nat) : StatusCode := TestVector n sz offset inc

/-- Truncation of a non-negative host integer to a signed 32-bit value, as
performed by `static_cast<int>` from `size_t` on the targeted hosts. -/
def toInt32 (v : Nat) : Int :=
  if v % 2 ^ 32 < 2 ^ 31 then ((v % 2 ^ 32 : Nat) : Int)
  else ((v % 2 ^ 32 : Nat) : Int) - 2 ^ 32

/-- The per-call operand data of one `DoAxpy` invocation: the logical
length, and for each of the two vectors its buffer capacity (in elements),
element offset and stride. -/
structure AxpyArgs where
  n : Nat
  x_size : Nat
  x_offset : Nat
  x_inc : Nat
  y_size : Nat
  y_offset : Nat
  y_inc : Nat
  deriving DecidableEq, Repr

/-- The tuning parameter set `db_` read by the routine. -/
structure TuningParams where
  WGS : Nat
  WPT : Nat
  VW : Nat
  deriving DecidableEq, Repr

/-- The two kernel variants the routine may request from the program. -/
inductive KernelName where
  | xaxpyFast
  | xaxpy
  deriving DecidableEq, Repr

/-- A value passed to `Kernel::SetArgument`: a narrowed integer, the alpha
scalar, or one of the two buffer handles. -/
inductive ArgValue where
  | int (v : Int)
  | alpha
  | bufX
  | bufY
  deriving DecidableEq, Repr

/-- One observable interaction with the execution backend. -/
inductive BackendEvent where
  | getProgram
  | createKernel (name : KernelName)
  | setArgument (index : Nat) (value : ArgValue)
  | runKernel (global loc : List Nat)
  | finish
  deriving DecidableEq, Repr

/-- The backend oracle: which backend call (if any) raises an exception,
and which status the kernel launch reports when it does not raise. -/
structure Backend where
  getProgramThrows : Bool
  createKernelThrows : Bool
  setArgThrows : Nat → Bool
  runThrows : Bool
  runStatus : StatusCode
  finishThrows : Bool

/-- The fast-kernel predicate of `DoAxpy` (xaxpy.cc lines 58-60). -/
def useFastKernel (db : TuningParams) (a : AxpyArgs) : Bool :=
  (a.x_offset == 0) && (a.x_inc == 1) &&
    (a.y_offset == 0) && (a.y_inc == 1) &&
    IsMultiple a.n (db.WGS * db.WPT * db.VW)

/-- The kernel name chosen by the routine (xaxpy.cc line 63). -/
def selectKernelName (db : TuningParams) (a : AxpyArgs) : KernelName :=
  if useFastKernel db a then KernelName.xaxpyFast else KernelName.xaxpy

/-- The positional argument list bound for the fast kernel
(xaxpy.cc lines 71-76). -/
def fastArgs (a : AxpyArgs) : List (Nat × ArgValue) :=
  [(0, ArgValue.int (toInt32 a.n)),
   (1, ArgValue.alpha),
   (2, ArgValue.bufX),
   (3, ArgValue.bufY)]

/-- The positional argument list bound for the generic kernel
(xaxpy.cc lines 77-86). -/
def genericArgs (a : AxpyArgs) : List (Nat × ArgValue) :=
  [(0, ArgValue.int (toInt32 a.n)),
   (1, ArgValue.alpha),
   (2, ArgValue.bufX),
   (3, ArgValue.int (toInt32 a.x_offset)),
   (4, ArgValue.int (toInt32 a.x_inc)),
   (5, ArgValue.bufY),
   (6, ArgValue.int (toInt32 a.y_offset)),
   (7, ArgValue.int (toInt32 a.y_inc))]

/-- The argument list actually bound, per selected kernel variant. -/
def xaxpyArgs (db : TuningParams) (a : AxpyArgs) : List (Nat × ArgValue) :=
  if useFastKernel db a then fastArgs a else genericArgs a

/-- Executes the sequence of `SetArgument` calls against the backend:
returns whether all calls succeeded, and the events of the calls that were
attempted (a raising call stops the sequence). -/
def bindArgs (be : Backend) : List (Nat × ArgValue) → Bool × List BackendEvent
  | [] => (true, [])
  | (i, v) :: rest =>
    if be.setArgThrows i then (false, [BackendEvent.setArgument i v])
    else
      let r := bindArgs be rest
      (r.1, BackendEvent.setArgument i v :: r.2)

/-- Global work size on the fast path (xaxpy.cc line 90). -/
def fastGlobal (db : TuningParams) (n : Nat) : Nat :=
  CeilDiv n (db.WPT * db.VW)

/-- Global work size on the generic path (xaxpy.cc lines 95-96): `n` is
rounded up to `n_ceiled`, a multiple of `WGS*WPT`, then divided by `WPT`. -/
def genericGlobal (db : TuningParams) (n : Nat) : Nat :=
  Ceil n (db.WGS * db.WPT) / db.WPT

/-- The full event trace of a launch attempt that reaches `RunKernel`:
program retrieval, kernel creation, every argument binding, and the launch
with its geometry (local size is `WGS` on both paths). -/
def launchEvents (db : TuningParams) (be : Backend) (a : AxpyArgs) : List BackendEvent :=
  [BackendEvent.getProgram, BackendEvent.createKernel (selectKernelName db a)]
    ++ (bindArgs be (xaxpyArgs db a)).2
    ++ [BackendEvent.runKernel
          (if useFastKernel db a then [fastGlobal db a.n] else [genericGlobal db a.n])
          [db.WGS]]

/-- The body of the `try` block of `DoAxpy` (xaxpy.cc lines 66-107): each
backend call either raises (the `catch (...)` turns this into
`kInvalidKernel`) or proceeds; an error status reported by `RunKernel` is
returned as-is (line 100); on success the routine waits on the queue and
returns `kSuccess`. -/
def tryBody (db : TuningParams) (be : Backend) (a : AxpyArgs) :
    StatusCode × List BackendEvent :=
  if be.getProgramThrows then
    (StatusCode.kInvalidKernel, [BackendEvent.getProgram])
  else if be.createKernelThrows then
    (StatusCode.kInvalidKernel,
      [BackendEvent.getProgram, BackendEvent.createKernel (selectKernelName db a)])
  else if (bindArgs be (xaxpyArgs db a)).1 = false then
    (StatusCode.kInvalidKernel,
      [BackendEvent.getProgram, BackendEvent.createKernel (selectKernelName db a)]
        ++ (bindArgs be (xaxpyArgs db a)).2)
  else if be.runThrows then
    (StatusCode.kInvalidKernel, launchEvents db be a)
  else if ErrorIn be.runStatus then
    (be.runStatus, launchEvents db be a)
  else if be.finishThrows then
    (StatusCode.kInvalidKernel, launchEvents db be a ++ [BackendEvent.finish])
  else
    (StatusCode.kSuccess, launchEvents db be a ++ [BackendEvent.finish])

/-- `Xaxpy<T>::DoAxpy` (xaxpy.cc lines 44-108): the zero-length check, the
two operand validations in order, then the guarded launch.  The second
component is the trace of backend interactions performed by the call. -/
def DoAxpy (db : TuningParams) (be : Backend) (a : AxpyArgs) :
    StatusCode × List BackendEvent :=
  if a.n = 0 then (StatusCode.kInvalidDimension, [])
  else if ErrorIn (TestVectorX a.n a.x_size a.x_offset a.x_inc) then
    (TestVectorX a.n a.x_size a.x_offset a.x_inc, [])
  else if ErrorIn (TestVectorY a.n a.y_size a.y_offset a.y_inc) then
    (TestVectorY a.n a.y_size a.y_offset a.y_inc, [])
  else tryBody db be a

/-- Event classifier used to state which trace events are argument
bindings. -/
def isSetArg : BackendEvent → Bool
  | BackendEvent.setArgument _ _ => true
  | _ => false

/-- A backend in which no call raises and the launch reports success. -/
def exBe : Backend :=
  ⟨false, false, fun _ => false, false, StatusCode.kSuccess, false⟩

/-- A backend in which no call raises but the launch reports a
launch-error status. -/
def exBeLaunchErr : Backend :=
  ⟨false, false, fun _ => false, false, StatusCode.kKernelLaunchError, false⟩

/-- A backend in which program retrieval raises. -/
def exBeThrow : Backend :=
  ⟨true, false, fun _ => false, false, StatusCode.kSuccess, false⟩

/-- A small tuning parameter set: WGS = 2, WPT = 2, VW = 2 (tile 8). -/
def exDb : TuningParams := ⟨2, 2, 2⟩

/-- A zero-length invocation. -/
def exArgs0 : AxpyArgs := ⟨0, 8, 0, 1, 8, 0, 1⟩

/-- A contiguous invocation with n divisible by the tile size. -/
def exArgsFast : AxpyArgs := ⟨8, 8, 0, 1, 8, 0, 1⟩

/-- A contiguous invocation with n not divisible by the tile size. -/
def exArgsGen : AxpyArgs := ⟨5, 8, 0, 1, 8, 0, 1⟩

/-- An invocation whose x buffer is too small for the accessed range. -/
def exArgsBadX : AxpyArgs := ⟨8, 4, 0, 1, 8, 0, 1⟩

end Clblast

namespace Clblast

theorem useFastKernel_iff (db : TuningParams) (a : AxpyArgs) :
    useFastKernel db a = true ↔
      a.x_offset = 0 ∧ a.x_inc = 1 ∧ a.y_offset = 0 ∧ a.y_inc = 1 ∧
        db.WGS * db.WPT * db.VW ∣ a.n := by
  simp [useFastKernel, IsMultiple, Bool.and_eq_true, beq_iff_eq,
    decide_eq_true_eq, and_assoc]

theorem bindArgs_events (be : Backend) :
    ∀ (args : List (Nat × ArgValue)), ∀ e ∈ (bindArgs be args).2,
      ∃ i v, e = BackendEvent.setArgument i v := by
  intro args
  induction args with
  | nil =>
    intro e he
    simp [bindArgs] at he
  | cons p rest ih =>
    obtain ⟨i, v⟩ := p
    intro e he
    by_cases h : be.setArgThrows i
    · have hb : bindArgs be ((i, v) :: rest) =
          (false, [BackendEvent.setArgument i v]) := by
        simp [bindArgs, h]
      rw [hb] at he
      simp at he
      exact ⟨i, v, he⟩
    · have hb : bindArgs be ((i, v) :: rest) =
          ((bindArgs be rest).1,
            BackendEvent.setArgument i v :: (bindArgs be rest).2) := by
        simp [bindArgs, h]
      rw [hb] at he
      simp at he
      rcases he with h1 | h1
      · exact ⟨i, v, h1⟩
      · exact ih e h1

theorem bindArgs_no_throw (be : Backend) (hsa : ∀ i, be.setArgThrows i = false) :
    ∀ (args : List (Nat × ArgValue)),
      bindArgs be args = (true, args.map fun p => BackendEvent.setArgument p.1 p.2) := by
  intro args
  induction args with
  | nil => simp [bindArgs]
  | cons p rest ih =>
    obtain ⟨i, v⟩ := p
    simp [bindArgs, hsa i, ih]

theorem ceilDiv_bounds (n k : Nat) (hk : 0 < k) :
    n ≤ CeilDiv n k * k ∧ CeilDiv n k * k < n + k := by
  have h := Nat.div_add_mod (n + k - 1) k
  have hr : (n + k - 1) % k < k := Nat.mod_lt _ hk
  have hq : CeilDiv n k * k = k * ((n + k - 1) / k) := by
    rw [CeilDiv, Nat.mul_comm]
  rw [hq]
  generalize hm : k * ((n + k - 1) / k) = m at h ⊢
  generalize hr2 : (n + k - 1) % k = r at h hr
  omega

theorem ceilDiv_le_of_le (n k m : Nat) (hk : 0 < k) (h : n ≤ m * k) :
    CeilDiv n k ≤ m := by
  have hb := (ceilDiv_bounds n k hk).2
  have hlt : CeilDiv n k * k < (m + 1) * k := by
    calc CeilDiv n k * k < n + k := hb
      _ ≤ m * k + k := Nat.add_le_add_right h k
      _ = (m + 1) * k := by ring
  exact Nat.lt_succ_iff.mp (lt_of_mul_lt_mul_right hlt (Nat.zero_le k))

theorem ceilDiv_of_dvd (n k : Nat) (hk : 0 < k) (h : k ∣ n) :
    CeilDiv n k = n / k := by
  obtain ⟨m, rfl⟩ := h
  rw [CeilDiv, Nat.mul_div_cancel_left m hk, Nat.add_sub_assoc hk,
    Nat.mul_add_div hk, Nat.div_eq_of_lt (by omega)]
  omega

theorem runKernel_mem_launchEvents (db : TuningParams) (be : Backend)
    (a : AxpyArgs) (g l : List Nat)
    (h : BackendEvent.runKernel g l ∈ launchEvents db be a) :
    g = (if useFastKernel db a then [fastGlobal db a.n] else [genericGlobal db a.n]) ∧
      l = [db.WGS] := by
  have hbind := bindArgs_events be (xaxpyArgs db a)
  simp only [launchEvents, List.mem_append, List.mem_cons,
    List.mem_singleton, List.not_mem_nil, or_false] at h
  rcases h with ((h | h) | h) | h
  · exact absurd h (by simp)
  · exact absurd h (by simp)
  · obtain ⟨i, v, hiv⟩ := hbind _ h
    exact absurd hiv (by simp)
  · injection h with h1 h2
    exact ⟨h1, h2⟩

theorem runKernel_mem_trace (db : TuningParams) (be : Backend) (a : AxpyArgs)
    (g l : List Nat) (hmem : BackendEvent.runKernel g l ∈ (DoAxpy db be a).2) :
    g = (if useFastKernel db a then [fastGlobal db a.n] else [genericGlobal db a.n]) ∧
      l = [db.WGS] := by
  have hbind := bindArgs_events be (xaxpyArgs db a)
  unfold DoAxpy at hmem
  split at hmem
  · simp at hmem
  · split at hmem
    · simp at hmem
    · split at hmem
      · simp at hmem
      · unfold tryBody at hmem
        split at hmem
        · simp at hmem
        · split at hmem
          · simp at hmem
          · split at hmem
            · simp only [List.mem_append, List.mem_cons,
                List.mem_singleton, List.not_mem_nil, or_false] at hmem
              rcases hmem with (h | h) | h
              · exact absurd h (by simp)
              · exact absurd h (by simp)
              · obtain ⟨i, v, hiv⟩ := hbind _ h
                exact absurd hiv (by simp)
            · split at hmem
              · exact runKernel_mem_launchEvents db be a g l hmem
              · split at hmem
                · exact runKernel_mem_launchEvents db be a g l hmem
                · split at hmem
                  · rcases List.mem_append.mp hmem with h | h
                    · exact runKernel_mem_launchEvents db be a g l h
                    · exact absurd (List.mem_singleton.mp h) (by simp)
                  · rcases List.mem_append.mp hmem with h | h
                    · exact runKernel_mem_launchEvents db be a g l h
                    · exact absurd (List.mem_singleton.mp h) (by simp)

end Clblast

namespace Clblast

theorem errorIn_false (s : StatusCode) (h : ErrorIn s = false) :
    s = StatusCode.kSuccess := by
  cases s <;> first | rfl | simp [ErrorIn] at h

theorem testVector_error (n s o i : Nat) (hn : n ≠ 0)
    (he : ErrorIn (TestVector n s o i) = true) :
    TestVector n s o i = StatusCode.kInvalidBufferSize := by
  unfold TestVector at he ⊢
  rw [if_neg hn] at he ⊢
  by_cases hs : s < o + (n - 1) * i + 1
  · rw [if_pos hs]
  · rw [if_neg hs] at he
    simp [ErrorIn] at he

theorem tryBody_cases (db : TuningParams) (be : Backend) (a : AxpyArgs) :
    (tryBody db be a).1 = StatusCode.kInvalidKernel ∨
      ((tryBody db be a).1 = be.runStatus ∧
        be.getProgramThrows = false ∧ be.createKernelThrows = false ∧
        (bindArgs be (xaxpyArgs db a)).1 = true ∧ be.runThrows = false ∧
        (ErrorIn be.runStatus = true ∨ be.finishThrows = false)) := by
  unfold tryBody
  by_cases h1 : be.getProgramThrows = true
  · rw [if_pos h1]; exact Or.inl rfl
  · rw [if_neg h1]
    replace h1 : be.getProgramThrows = false := by simpa using h1
    by_cases h2 : be.createKernelThrows = true
    · rw [if_pos h2]; exact Or.inl rfl
    · rw [if_neg h2]
      replace h2 : be.createKernelThrows = false := by simpa using h2
      by_cases h3 : (bindArgs be (xaxpyArgs db a)).1 = false
      · rw [if_pos h3]; exact Or.inl rfl
      · rw [if_neg h3]
        replace h3 : (bindArgs be (xaxpyArgs db a)).1 = true := by simpa using h3
        by_cases h4 : be.runThrows = true
        · rw [if_pos h4]; exact Or.inl rfl
        · rw [if_neg h4]
          replace h4 : be.runThrows = false := by simpa using h4
          by_cases h5 : ErrorIn be.runStatus = true
          · rw [if_pos h5]
            exact Or.inr ⟨rfl, h1, h2, h3, h4, Or.inl h5⟩
          · rw [if_neg h5]
            replace h5 : ErrorIn be.runStatus = false := by simpa using h5
            have hs := errorIn_false be.runStatus h5
            by_cases h6 : be.finishThrows = true
            · rw [if_pos h6]; exact Or.inl rfl
            · rw [if_neg h6]
              replace h6 : be.finishThrows = false := by simpa using h6
              exact Or.inr ⟨by rw [hs], h1, h2, h3, h4, Or.inr h6⟩

theorem toInt32_spec (v : Nat) :
    -(2 ^ 31) ≤ toInt32 v ∧ toInt32 v < 2 ^ 31 ∧
      (2 ^ 32 : Int) ∣ toInt32 v - (v : Int) := by
  have hm := Nat.div_add_mod v (2 ^ 32)
  have hlt : v % 2 ^ 32 < 2 ^ 32 := Nat.mod_lt _ (by norm_num)
  have hmi : ((2 : Int) ^ 32) * ((v / 2 ^ 32 : Nat) : Int) +
      ((v % 2 ^ 32 : Nat) : Int) = (v : Int) := by exact_mod_cast hm
  rw [toInt32]
  by_cases h2 : v % 2 ^ 32 < 2 ^ 31
  · rw [if_pos h2]
    refine ⟨?_, ?_, ⟨-((v / 2 ^ 32 : Nat) : Int), ?_⟩⟩
    · have hpos : (0 : Int) ≤ ((v % 2 ^ 32 : Nat) : Int) := Int.natCast_nonneg _
      have hp : (0 : Int) < 2 ^ 31 := by norm_num
      linarith
    · exact_mod_cast h2
    · rw [← hmi]; ring
  · rw [if_neg h2]
    replace h2 : 2 ^ 31 ≤ v % 2 ^ 32 := Nat.not_lt.mp h2
    have h2i : ((2 : Int) ^ 31) ≤ ((v % 2 ^ 32 : Nat) : Int) := by exact_mod_cast h2
    have hlti : ((v % 2 ^ 32 : Nat) : Int) < 2 ^ 32 := by exact_mod_cast hlt
    refine ⟨?_, ?_, ⟨-((v / 2 ^ 32 : Nat) : Int) - 1, ?_⟩⟩
    · have hsum : (2 : Int) ^ 32 = 2 ^ 31 + 2 ^ 31 := by norm_num
      linarith
    · have hp : (0 : Int) < 2 ^ 31 := by norm_num
      linarith
    · rw [← hmi]; ring

/-- C1: for every invocation of `DoAxpy`, the kernel selector chooses the
fast variant exactly when both operands have offset 0 and stride 1 and the
length is an exact integer multiple of `WGS*WPT*VW`; in every other case
it chooses the generic variant.  This holds for every invocation, in
particular for every invocation that passes validation. -/
theorem doAxpy_kernel_selection (db : TuningParams) (a : AxpyArgs) :
    (selectKernelName db a = KernelName.xaxpyFast ↔
      a.x_offset = 0 ∧ a.x_inc = 1 ∧ a.y_offset = 0 ∧ a.y_inc = 1 ∧
        db.WGS * db.WPT * db.VW ∣ a.n) ∧
    (¬ (a.x_offset = 0 ∧ a.x_inc = 1 ∧ a.y_offset = 0 ∧ a.y_inc = 1 ∧
        db.WGS * db.WPT * db.VW ∣ a.n) →
      selectKernelName db a = KernelName.xaxpy) := by
  have hiff := useFastKernel_iff db a
  rw [selectKernelName]
  by_cases h : useFastKernel db a = true
  · rw [if_pos h]
    exact ⟨⟨fun _ => hiff.mp h, fun _ => rfl⟩,
      fun hc => absurd (hiff.mp h) hc⟩
  · rw [if_neg h]
    refine ⟨⟨fun hne => absurd hne (by simp), fun hc => absurd (hiff.mpr hc) h⟩,
      fun _ => rfl⟩

/-- C3: a zero-length invocation returns `kInvalidDimension` with an empty
backend trace: no validation of buffers against the backend, no program
retrieval, no argument binding, no enqueue. -/
theorem doAxpy_zero_length (db : TuningParams) (be : Backend) (a : AxpyArgs)
    (h : a.n = 0) :
    DoAxpy db be a = (StatusCode.kInvalidDimension, []) := by
  simp [DoAxpy, h]

/-- Witness for C3 at a concrete zero-length invocation. -/
theorem doAxpy_zero_length_witness :
    exArgs0.n = 0 ∧ DoAxpy exDb exBe exArgs0 = (StatusCode.kInvalidDimension, []) :=
  ⟨rfl, doAxpy_zero_length exDb exBe exArgs0 rfl⟩

end Clblast

namespace Clblast

/-- C2 counterexample: with a backend whose launch call reports a
launch-error status without raising, `DoAxpy` returns that status to the
caller unchanged rather than the single status `kInvalidKernel` the claim
requires for every launch/execution failure. -/
theorem doAxpy_launch_status_not_collapsed :
    (DoAxpy exDb exBeLaunchErr exArgsFast).1 = StatusCode.kKernelLaunchError ∧
      StatusCode.kKernelLaunchError ≠ StatusCode.kInvalidKernel := by
  decide

/-- C2 amended: after validation passes, every exception raised during
program retrieval, kernel creation, argument binding, the launch call or
the completion wait is reported as `kInvalidKernel` (and never
propagates), while an error status returned by the launch call itself is
handed to the caller unchanged: the result is always either
`kInvalidKernel` or the status reported by the launch call. -/
theorem doAxpy_error_conversion (db : TuningParams) (be : Backend) (a : AxpyArgs)
    (hn : a.n ≠ 0)
    (hx : ErrorIn (TestVectorX a.n a.x_size a.x_offset a.x_inc) = false)
    (hy : ErrorIn (TestVectorY a.n a.y_size a.y_offset a.y_inc) = false) :
    ((DoAxpy db be a).1 = StatusCode.kInvalidKernel ∨
      (DoAxpy db be a).1 = be.runStatus) ∧
    (be.getProgramThrows = true →
      (DoAxpy db be a).1 = StatusCode.kInvalidKernel) ∧
    (be.createKernelThrows = true →
      (DoAxpy db be a).1 = StatusCode.kInvalidKernel) ∧
    ((bindArgs be (xaxpyArgs db a)).1 = false →
      (DoAxpy db be a).1 = StatusCode.kInvalidKernel) ∧
    (be.runThrows = true →
      (DoAxpy db be a).1 = StatusCode.kInvalidKernel) ∧
    (be.finishThrows = true → ErrorIn be.runStatus = false →
      (DoAxpy db be a).1 = StatusCode.kInvalidKernel) := by
  have hD : DoAxpy db be a = tryBody db be a := by simp [DoAxpy, hn, hx, hy]
  have hc := tryBody_cases db be a
  rw [hD]
  refine ⟨?_, ?_, ?_, ?_, ?_, ?_⟩
  · rcases hc with h | ⟨h, _⟩
    · exact Or.inl h
    · exact Or.inr h
  · intro hgp
    rcases hc with h | ⟨_, hg, _⟩
    · exact h
    · rw [hgp] at hg; cases hg
  · intro hck
    rcases hc with h | ⟨_, _, hg, _⟩
    · exact h
    · rw [hck] at hg; cases hg
  · intro hb
    rcases hc with h | ⟨_, _, _, hg, _⟩
    · exact h
    · rw [hb] at hg; cases hg
  · intro hr
    rcases hc with h | ⟨_, _, _, _, hg, _⟩
    · exact h
    · rw [hr] at hg; cases hg
  · intro hf he
    rcases hc with h | ⟨_, _, _, _, _, hg | hg⟩
    · exact h
    · rw [he] at hg; cases hg
    · rw [hf] at hg; cases hg

/-- Witness for C2 amended at a concrete backend that raises during
program retrieval. -/
theorem doAxpy_error_conversion_witness :
    (DoAxpy exDb exBeThrow exArgsFast).1 = StatusCode.kInvalidKernel :=
  (doAxpy_error_conversion exDb exBeThrow exArgsFast (by decide) (by decide)
    (by decide)).2.1 rfl

/-- C4: for a non-zero length, validation runs on the x operand first and
the y operand second, aborting on the first failure with the status of that
status code and an empty backend trace; an operand whose maximum accessed
offset exceeds its buffer capacity makes the routine return
`kInvalidBufferSize` before any backend interaction, so execution never
reaches kernel creation or argument binding. -/
theorem doAxpy_validation_order (db : TuningParams) (be : Backend) (a : AxpyArgs)
    (hn : a.n ≠ 0) :
    (ErrorIn (TestVectorX a.n a.x_size a.x_offset a.x_inc) = true →
      DoAxpy db be a = (TestVectorX a.n a.x_size a.x_offset a.x_inc, [])) ∧
    (ErrorIn (TestVectorX a.n a.x_size a.x_offset a.x_inc) = false →
      ErrorIn (TestVectorY a.n a.y_size a.y_offset a.y_inc) = true →
      DoAxpy db be a = (TestVectorY a.n a.y_size a.y_offset a.y_inc, [])) ∧
    (a.x_size < a.x_offset + (a.n - 1) * a.x_inc + 1 →
      DoAxpy db be a = (StatusCode.kInvalidBufferSize, [])) ∧
    (a.y_size < a.y_offset + (a.n - 1) * a.y_inc + 1 →
      DoAxpy db be a = (StatusCode.kInvalidBufferSize, [])) := by
  refine ⟨?_, ?_, ?_, ?_⟩
  · intro hx
    simp [DoAxpy, hn, hx]
  · intro hx hy
    simp [DoAxpy, hn, hx, hy]
  · intro hsz
    have hxv : TestVectorX a.n a.x_size a.x_offset a.x_inc =
        StatusCode.kInvalidBufferSize := by
      unfold TestVectorX TestVector
      rw [if_neg hn, if_pos hsz]
    simp [DoAxpy, hn, hxv, ErrorIn]
  · intro hsz
    have hyv : TestVectorY a.n a.y_size a.y_offset a.y_inc =
        StatusCode.kInvalidBufferSize := by
      unfold TestVectorY TestVector
      rw [if_neg hn, if_pos hsz]
    by_cases hx : ErrorIn (TestVectorX a.n a.x_size a.x_offset a.x_inc) = true
    · have hxv : TestVectorX a.n a.x_size a.x_offset a.x_inc =
          StatusCode.kInvalidBufferSize :=
        testVector_error a.n a.x_size a.x_offset a.x_inc hn hx
      simp [DoAxpy, hn, hxv,
        show ErrorIn StatusCode.kInvalidBufferSize = true from rfl]
    · replace hx : ErrorIn (TestVectorX a.n a.x_size a.x_offset a.x_inc) = false := by
        simpa using hx
      have hxs : TestVectorX a.n a.x_size a.x_offset a.x_inc =
          StatusCode.kSuccess := errorIn_false _ hx
      simp [DoAxpy, hn, hxs, hyv,
        show ErrorIn StatusCode.kInvalidBufferSize = true from rfl,
        show ErrorIn StatusCode.kSuccess = false from rfl]

/-- Witness for C4 at a concrete invocation whose x buffer is too small. -/
theorem doAxpy_validation_order_witness :
    DoAxpy exDb exBe exArgsBadX = (StatusCode.kInvalidBufferSize, []) :=
  (doAxpy_validation_order exDb exBe exArgsBadX (by decide)).2.2.1 (by decide)

end Clblast

namespace Clblast

/-- C5: every kernel launch performed by an invocation that selects the
fast kernel uses global work size `ceil(n / (WPT*VW))` — computed as
`(n + WPT*VW - 1) / (WPT*VW)`, which is a true round-up: it covers all
`n` elements and overshoots by less than one chunk — and local work size
`WGS`. -/
theorem doAxpy_fast_geometry (db : TuningParams) (be : Backend) (a : AxpyArgs)
    (g l : List Nat)
    (hmem : BackendEvent.runKernel g l ∈ (DoAxpy db be a).2)
    (hfast : useFastKernel db a = true)
    (hk : 0 < db.WPT * db.VW) :
    g = [(a.n + db.WPT * db.VW - 1) / (db.WPT * db.VW)] ∧ l = [db.WGS] ∧
      a.n ≤ (a.n + db.WPT * db.VW - 1) / (db.WPT * db.VW) * (db.WPT * db.VW) ∧
      (a.n + db.WPT * db.VW - 1) / (db.WPT * db.VW) * (db.WPT * db.VW) <
        a.n + db.WPT * db.VW := by
  obtain ⟨hg, hl⟩ := runKernel_mem_trace db be a g l hmem
  rw [if_pos hfast] at hg
  refine ⟨hg, hl, ?_, ?_⟩
  · exact (ceilDiv_bounds a.n (db.WPT * db.VW) hk).1
  · exact (ceilDiv_bounds a.n (db.WPT * db.VW) hk).2

/-- Witness for C5 at a concrete fast-path invocation (n = 8, WGS = WPT =
VW = 2): the recorded launch has global size 2 and local size 2. -/
theorem doAxpy_fast_geometry_witness :
    ([2] : List Nat) =
        [(exArgsFast.n + exDb.WPT * exDb.VW - 1) / (exDb.WPT * exDb.VW)] ∧
      ([2] : List Nat) = [exDb.WGS] ∧
      exArgsFast.n ≤ (exArgsFast.n + exDb.WPT * exDb.VW - 1) /
        (exDb.WPT * exDb.VW) * (exDb.WPT * exDb.VW) ∧
      (exArgsFast.n + exDb.WPT * exDb.VW - 1) / (exDb.WPT * exDb.VW) *
        (exDb.WPT * exDb.VW) < exArgsFast.n + exDb.WPT * exDb.VW :=
  doAxpy_fast_geometry exDb exBe exArgsFast [2] [2] (by decide) (by decide)
    (by decide)

/-- C6: every kernel launch performed by an invocation that selects the
generic kernel first rounds `n` up to `n_ceiled`, the nearest multiple of
`WGS*WPT` (it is divisible by `WGS*WPT`, at least `n`, and less than
`n + WGS*WPT`), and uses global work size `n_ceiled / WPT` and local work
size `WGS`. -/
theorem doAxpy_generic_geometry (db : TuningParams) (be : Backend) (a : AxpyArgs)
    (g l : List Nat)
    (hmem : BackendEvent.runKernel g l ∈ (DoAxpy db be a).2)
    (hgen : useFastKernel db a = false)
    (hm : 0 < db.WGS * db.WPT) :
    g = [Ceil a.n (db.WGS * db.WPT) / db.WPT] ∧ l = [db.WGS] ∧
      db.WGS * db.WPT ∣ Ceil a.n (db.WGS * db.WPT) ∧
      a.n ≤ Ceil a.n (db.WGS * db.WPT) ∧
      Ceil a.n (db.WGS * db.WPT) < a.n + db.WGS * db.WPT := by
  obtain ⟨hg, hl⟩ := runKernel_mem_trace db be a g l hmem
  rw [if_neg (by rw [hgen]; exact Bool.false_ne_true)] at hg
  refine ⟨hg, hl, ⟨CeilDiv a.n (db.WGS * db.WPT), ?_⟩, ?_, ?_⟩
  · rw [Ceil]; ring
  · exact (ceilDiv_bounds a.n (db.WGS * db.WPT) hm).1
  · exact (ceilDiv_bounds a.n (db.WGS * db.WPT) hm).2

/-- Witness for C6 at a concrete generic-path invocation (n = 5, WGS =
WPT = VW = 2): n_ceiled = 8 and the recorded launch has global size 4 and
local size 2. -/
theorem doAxpy_generic_geometry_witness :
    ([4] : List Nat) = [Ceil exArgsGen.n (exDb.WGS * exDb.WPT) / exDb.WPT] ∧
      ([2] : List Nat) = [exDb.WGS] ∧
      exDb.WGS * exDb.WPT ∣ Ceil exArgsGen.n (exDb.WGS * exDb.WPT) ∧
      exArgsGen.n ≤ Ceil exArgsGen.n (exDb.WGS * exDb.WPT) ∧
      Ceil exArgsGen.n (exDb.WGS * exDb.WPT) < exArgsGen.n + exDb.WGS * exDb.WPT :=
  doAxpy_generic_geometry exDb exBe exArgsGen [4] [2] (by decide) (by decide)
    (by decide)

/-- C7: for positive `n` and `k`, the round-up division used by the
geometry calculator equals `(n + k - 1) / k` under truncating integer
division and is the exact ceiling of `n / k`: it covers all `n` elements
and is the least such multiplier, so no remainder is truncated away. -/
theorem ceilDiv_is_ceiling (n k : Nat) (hn : 0 < n) (hk : 0 < k) :
    CeilDiv n k = (n + k - 1) / k ∧
      n ≤ CeilDiv n k * k ∧
      ∀ m : Nat, n ≤ m * k → CeilDiv n k ≤ m :=
  ⟨rfl, (ceilDiv_bounds n k hk).1, fun m hm => ceilDiv_le_of_le n k m hk hm⟩

/-- Witness for C7 at n = 5, k = 2: `CeilDiv` matches `(n+k-1)/k`, covers
all elements, and is at most the covering multiplier 3. -/
theorem ceilDiv_is_ceiling_witness :
    CeilDiv 5 2 = (5 + 2 - 1) / 2 ∧ 5 ≤ CeilDiv 5 2 * 2 ∧ CeilDiv 5 2 ≤ 3 :=
  ⟨(ceilDiv_is_ceiling 5 2 (by decide) (by decide)).1,
   (ceilDiv_is_ceiling 5 2 (by decide) (by decide)).2.1,
   (ceilDiv_is_ceiling 5 2 (by decide) (by decide)).2.2 3 (by decide)⟩

end Clblast

namespace Clblast

theorem filter_launchEvents (db : TuningParams) (be : Backend) (a : AxpyArgs)
    (hsa : ∀ i, be.setArgThrows i = false) :
    (launchEvents db be a).filter isSetArg =
      (xaxpyArgs db a).map (fun p => BackendEvent.setArgument p.1 p.2) := by
  have hbind := bindArgs_no_throw be hsa (xaxpyArgs db a)
  rw [launchEvents, hbind]
  rw [List.filter_append, List.filter_append]
  have h1 : ([BackendEvent.getProgram,
      BackendEvent.createKernel (selectKernelName db a)] : List BackendEvent).filter
        isSetArg = [] := rfl
  have h2 : ∀ gl loc, ([BackendEvent.runKernel gl loc] : List BackendEvent).filter
      isSetArg = [] := fun _ _ => rfl
  rw [h1, h2]
  rw [List.filter_map]
  have h3 : (isSetArg ∘ fun p : Nat × ArgValue =>
      BackendEvent.setArgument p.1 p.2) = fun _ => true := by
    funext p
    rfl
  rw [h3, List.filter_true]
  simp

/-- C8: whenever an invocation reaches argument binding and no binding
call raises, the bound arguments are exactly the kernel-variant-specific
positional list: the fast variant binds (n, alpha, x buffer, y buffer) at
positions 0-3 and the generic variant binds (n, alpha, x buffer,
x_offset, x_inc, y buffer, y_offset, y_inc) at positions 0-7, scalars
first and operand handles after; offset/stride values appear only in the
argument list of the generic variant. -/
theorem doAxpy_argument_binding (db : TuningParams) (be : Backend) (a : AxpyArgs)
    (hn : a.n ≠ 0)
    (hx : ErrorIn (TestVectorX a.n a.x_size a.x_offset a.x_inc) = false)
    (hy : ErrorIn (TestVectorY a.n a.y_size a.y_offset a.y_inc) = false)
    (hgp : be.getProgramThrows = false)
    (hck : be.createKernelThrows = false)
    (hsa : ∀ i, be.setArgThrows i = false) :
    (DoAxpy db be a).2.filter isSetArg =
      (if useFastKernel db a then fastArgs a else genericArgs a).map
        (fun p => BackendEvent.setArgument p.1 p.2) ∧
    fastArgs a = [(0, ArgValue.int (toInt32 a.n)), (1, ArgValue.alpha),
      (2, ArgValue.bufX), (3, ArgValue.bufY)] ∧
    genericArgs a = [(0, ArgValue.int (toInt32 a.n)), (1, ArgValue.alpha),
      (2, ArgValue.bufX), (3, ArgValue.int (toInt32 a.x_offset)),
      (4, ArgValue.int (toInt32 a.x_inc)), (5, ArgValue.bufY),
      (6, ArgValue.int (toInt32 a.y_offset)),
      (7, ArgValue.int (toInt32 a.y_inc))] := by
  refine ⟨?_, rfl, rfl⟩
  have hD : DoAxpy db be a = tryBody db be a := by simp [DoAxpy, hn, hx, hy]
  have hbind := bindArgs_no_throw be hsa (xaxpyArgs db a)
  have hfl := filter_launchEvents db be a hsa
  have hfin : (launchEvents db be a ++ [BackendEvent.finish]).filter isSetArg =
      (xaxpyArgs db a).map (fun p => BackendEvent.setArgument p.1 p.2) := by
    rw [List.filter_append, hfl]
    simp [isSetArg]
  rw [hD]
  unfold tryBody
  rw [if_neg (by rw [hgp]; exact Bool.false_ne_true)]
  rw [if_neg (by rw [hck]; exact Bool.false_ne_true)]
  rw [if_neg (by simp [hbind])]
  by_cases h4 : be.runThrows = true
  · rw [if_pos h4]; exact hfl
  · rw [if_neg h4]
    by_cases h5 : ErrorIn be.runStatus = true
    · rw [if_pos h5]; exact hfl
    · rw [if_neg h5]
      by_cases h6 : be.finishThrows = true
      · rw [if_pos h6]; exact hfin
      · rw [if_neg h6]; exact hfin

/-- Witness for C8 at a concrete fast-path invocation: the bound
arguments recorded in the trace are exactly (n, alpha, x buffer,
y buffer) at positions 0-3. -/
theorem doAxpy_argument_binding_witness :
    (DoAxpy exDb exBe exArgsFast).2.filter isSetArg =
      [BackendEvent.setArgument 0 (ArgValue.int 8),
       BackendEvent.setArgument 1 ArgValue.alpha,
       BackendEvent.setArgument 2 ArgValue.bufX,
       BackendEvent.setArgument 3 ArgValue.bufY] := by
  have h := (doAxpy_argument_binding exDb exBe exArgsFast (by decide) (by decide)
    (by decide) rfl rfl (fun i => rfl)).1
  rw [h]
  decide

/-- C9: with positive tuning parameters, the global work size computed
for either path is an exact integer multiple of the local work size
`WGS`: on the fast path under the divisibility precondition of the fast path
`WGS*WPT*VW ∣ n`, and on the generic path unconditionally because
`n_ceiled` is a multiple of `WGS*WPT`. -/
theorem doAxpy_global_divisible (db : TuningParams) (n : Nat)
    (hwgs : 0 < db.WGS) (hwpt : 0 < db.WPT) (hvw : 0 < db.VW) :
    (db.WGS * db.WPT * db.VW ∣ n → db.WGS ∣ fastGlobal db n) ∧
      db.WGS ∣ genericGlobal db n := by
  constructor
  · intro hd
    obtain ⟨t, rfl⟩ := hd
    have hk : 0 < db.WPT * db.VW := Nat.mul_pos hwpt hvw
    have hdvd : db.WPT * db.VW ∣ db.WGS * db.WPT * db.VW * t :=
      ⟨db.WGS * t, by ring⟩
    rw [fastGlobal, ceilDiv_of_dvd _ _ hk hdvd]
    have he : db.WGS * db.WPT * db.VW * t =
        db.WGS * t * (db.WPT * db.VW) := by ring
    rw [he, Nat.mul_div_cancel _ hk]
    exact ⟨t, rfl⟩
  · rw [genericGlobal, Ceil]
    have he : CeilDiv n (db.WGS * db.WPT) * (db.WGS * db.WPT) =
        CeilDiv n (db.WGS * db.WPT) * db.WGS * db.WPT := by ring
    rw [he, Nat.mul_div_cancel _ hwpt]
    exact ⟨CeilDiv n (db.WGS * db.WPT), mul_comm _ _⟩

/-- Witness for C9 at n = 8 with WGS = WPT = VW = 2. -/
theorem doAxpy_global_divisible_witness :
    exDb.WGS ∣ fastGlobal exDb 8 ∧ exDb.WGS ∣ genericGlobal exDb 8 :=
  ⟨(doAxpy_global_divisible exDb 8 (by decide) (by decide) (by decide)).1
      (by decide),
   (doAxpy_global_divisible exDb 8 (by decide) (by decide) (by decide)).2⟩

/-- C10: the size, offsets and strides are narrowed to a signed 32-bit
integer before being bound as kernel arguments (the generic variant has
integer arguments are exactly the `toInt32` images of n, x_offset, x_inc,
y_offset, y_inc); the narrowed value always lies in [-2^31, 2^31), is
congruent to the input modulo 2^32, and differs from any input exceeding
the maximum representable int. -/
theorem doAxpy_int_narrowing (a : AxpyArgs) (v : Nat) :
    (genericArgs a).map Prod.snd =
      [ArgValue.int (toInt32 a.n), ArgValue.alpha, ArgValue.bufX,
       ArgValue.int (toInt32 a.x_offset), ArgValue.int (toInt32 a.x_inc),
       ArgValue.bufY, ArgValue.int (toInt32 a.y_offset),
       ArgValue.int (toInt32 a.y_inc)] ∧
    (-(2 ^ 31) ≤ toInt32 v ∧ toInt32 v < 2 ^ 31) ∧
    (2 ^ 32 : Int) ∣ toInt32 v - (v : Int) ∧
    (2 ^ 31 ≤ v → toInt32 v ≠ (v : Int)) := by
  obtain ⟨h1, h2, h3⟩ := toInt32_spec v
  refine ⟨rfl, ⟨h1, h2⟩, h3, ?_⟩
  intro hv heq
  rw [heq] at h2
  have hvi : ((2 : Int) ^ 31) ≤ (v : Int) := by exact_mod_cast hv
  linarith

/-- Witness for C10 at v = 2^31, the smallest input exceeding the
maximum representable int: the narrowed value differs from the input yet
is congruent to it modulo 2^32. -/
theorem doAxpy_int_narrowing_witness :
    toInt32 (2 ^ 31) ≠ ((2 ^ 31 : Nat) : Int) ∧
      (2 ^ 32 : Int) ∣ toInt32 (2 ^ 31) - ((2 ^ 31 : Nat) : Int) :=
  ⟨(doAxpy_int_narrowing exArgsFast (2 ^ 31)).2.2.2 (le_refl _),
   (doAxpy_int_narrowing exArgsFast (2 ^ 31)).2.2.1⟩

end Clblast
